import Mathlib

/-!
Shallow embedding of the track-fitting verification service (`app.py`): the
component vocabulary matcher, the best-detection selector, the verdict
builder, the Firestore persistence adapter and the two POST request handlers.
The object-detection model and the image decoder are external collaborators:
a request's image is modelled by whether it decodes and by the inference
output (the model's label map and its detection boxes) that the model would
return for it. Machine floats are modelled as rationals.
-/

namespace Verify

/-- `listStartsWith p s` : the char list `p` is an initial segment of `s`. -/
def listStartsWith : List Char → List Char → Bool
  | [], _ => true
  | _ :: _, [] => false
  | a :: as, b :: bs => a == b && listStartsWith as bs

/-- `containsSub n h` : the char list `n` occurs contiguously inside `h`. -/
def containsSub (needle : List Char) : List Char → Bool
  | [] => listStartsWith needle []
  | c :: rest => listStartsWith needle (c :: rest) || containsSub needle rest

/-- Python's `needle in hay` substring test on strings. -/
def substrIn (needle hay : String) : Bool :=
  containsSub needle.toList hay.toList

/-- The static fallback label table `CLASS_NAMES` of `app.py`. -/
def CLASS_NAMES : List String :=
  ["clip_ok", "liner_ok", "pad_ok", "sleeper_ok", "bolt_ok", "erc_ok",
   "clip_faulty", "liner_faulty", "pad_faulty", "sleeper_faulty",
   "bolt_faulty", "erc_faulty",
   "clip_rust", "liner_rust", "pad_rust", "sleeper_rust", "bolt_rust",
   "erc_rust",
   "clip_missing", "liner_missing", "pad_missing", "sleeper_missing",
   "bolt_missing", "erc_missing",
   "qr_code"]

/-- The ordered candidate list of `parse_component`. -/
def COMPONENTS : List String := ["erc", "liner", "sleeper", "clip", "pad", "bolt"]

/-- Python's `str.lower()`, character by character. -/
def lowerStr (s : String) : String :=
  String.mk (s.data.map Char.toLower)

/-- `parse_component` of `app.py`: lowercase the (possibly absent) label and
return the first entry of `COMPONENTS` occurring in it as a substring. -/
def parse_component (class_name : Option String) : Option String :=
  let name := lowerStr (class_name.getD "")
  COMPONENTS.find? (fun comp => substrIn comp name)

/-- One raw detection box: the confidence score and the numeric class id
(`b.conf`, `b.cls` in `run_pt_inference`). -/
structure Box where
  conf : ℚ
  cls : ℕ
deriving DecidableEq

/-- The running-best record built in `run_pt_inference`'s loop
(`{"component": ..., "confidence": ..., "class_name": ...}`). -/
structure BestMatch where
  component : String
  confidence : ℚ
  class_name : String
deriving DecidableEq

/-- Lookup in the model's label map (`cls_id in r.names` / `r.names[cls_id]`),
the map modelled as an association list. -/
def lookupName (names : List (ℕ × String)) (i : ℕ) : Option String :=
  (names.find? (fun p => p.1 == i)).map Prod.snd

/-- Class-label resolution of `run_pt_inference`: the model's own label map
when present and containing the id, else `CLASS_NAMES[cls_id]` when in range,
else the stringified id. -/
def resolveLabel (names : Option (List (ℕ × String))) (cls_id : ℕ) : String :=
  match names.bind (fun m => lookupName m cls_id) with
  | some s => s
  | none =>
    if cls_id < CLASS_NAMES.length then CLASS_NAMES.getD cls_id ""
    else toString cls_id

/-- One iteration's label resolution plus matcher call: the `BestMatch`
candidate a box contributes, or `none` when its component is unresolvable. -/
def resolveBox (names : Option (List (ℕ × String))) (b : Box) : Option BestMatch :=
  let class_name := resolveLabel names b.cls
  (parse_component (some class_name)).map
    (fun comp => { component := comp, confidence := b.conf, class_name := class_name })

/-- The detections of a list whose label resolves to a component, in order. -/
def resolvables (names : Option (List (ℕ × String))) (bs : List Box) : List BestMatch :=
  bs.filterMap (resolveBox names)

/-- The selection loop of `run_pt_inference`: running best and running best
confidence, replacement on strict `>`. -/
def selectBest (names : Option (List (ℕ × String))) :
    List Box → Option BestMatch → ℚ → Option BestMatch
  | [], best, _ => best
  | b :: rest, best, best_conf =>
    match parse_component (some (resolveLabel names b.cls)) with
    | none => selectBest names rest best best_conf
    | some comp =>
      if b.conf > best_conf then
        selectBest names rest
          (some { component := comp, confidence := b.conf,
                  class_name := resolveLabel names b.cls }) b.conf
      else selectBest names rest best best_conf

/-- The post-inference part of `run_pt_inference`: `None` when the box list is
absent or empty, else the selection loop started at `best = None`,
`best_conf = -1.0`. The model call itself is the external collaborator that
produced `names` and `boxes`. -/
def run_pt_inference (names : Option (List (ℕ × String)))
    (boxes : Option (List Box)) : Option BestMatch :=
  match boxes with
  | none => none
  | some bs => if bs.length = 0 then none else selectBest names bs none (-1)

/-- First-encountered maximum of a `BestMatch` list (specification-side
characterisation of the selection loop). -/
def firstMax : List BestMatch → Option BestMatch
  | [] => none
  | m :: rest =>
    match firstMax rest with
    | none => some m
    | some y => if y.confidence > m.confidence then some y else some m

/-- The selection loop restricted to the already-resolved candidates. -/
def loopR : List BestMatch → Option BestMatch → ℚ → Option BestMatch
  | [], best, _ => best
  | m :: rest, best, bc =>
    if m.confidence > bc then loopR rest (some m) m.confidence
    else loopR rest best bc

/-- The canonical result record built by both handlers. -/
structure VerificationResult where
  ok : Bool
  status : String
  component : Option String
  confidence : ℚ
deriving DecidableEq

/-- The `result_json` construction of `verify_web` (lines 236-249 of
`app.py`). -/
def verify_web_result (det : Option BestMatch) : VerificationResult :=
  match det with
  | none =>
    { ok := true, status := "not_detected", component := none, confidence := 0 }
  | some d =>
    { ok := true, status := "verified", component := some d.component,
      confidence := d.confidence }

/-- The `result_json` construction of `api_verify` (lines 289-302 of
`app.py`), textually identical to the one in `verify_web`. -/
def api_verify_result (det : Option BestMatch) : VerificationResult :=
  match det with
  | none =>
    { ok := true, status := "not_detected", component := none, confidence := 0 }
  | some d =>
    { ok := true, status := "verified", component := some d.component,
      confidence := d.confidence }

/-- JSON-compatible values of the stored/returned documents.
`jtimestamp` is the `firestore.SERVER_TIMESTAMP` sentinel. -/
inductive JValue where
  | jnull
  | jbool (b : Bool)
  | jstr (s : String)
  | jnum (q : ℚ)
  | jtimestamp
deriving DecidableEq

/-- A JSON document: keys with values, in Python dict insertion order. -/
abbrev Doc := List (String × JValue)

/-- Python dict assignment `d[k] = v`: overwrite in place when the key
exists, append otherwise. -/
def setKey (d : Doc) (k : String) (v : JValue) : Doc :=
  if d.any (fun p => p.1 == k) then
    d.map (fun p => if p.1 == k then (k, v) else p)
  else d ++ [(k, v)]

/-- Python `s or None` on a string field, serialised to JSON. -/
def orNullStr (s : String) : JValue :=
  if s = "" then .jnull else .jstr s

/-- The JSON serialisation of a `VerificationResult` (the dict literal of the
handlers, in insertion order). -/
def resultToDoc (r : VerificationResult) : Doc :=
  [("ok", .jbool r.ok), ("status", .jstr r.status),
   ("component", match r.component with | none => .jnull | some c => .jstr c),
   ("confidence", .jnum r.confidence)]

/-- The external Firestore collaborator for one call: the document id a fresh
`collection(...).document()` reference would carry, and whether `ref.set`
raises. -/
structure Store where
  newId : String
  writeRaises : Bool
deriving DecidableEq

/-- `save_result_to_firestore` of `app.py`: skip (return `None`) when no
store is configured, else copy the result JSON, append `materialId`,
`source`, `threshold`, `model`, `createdAt`, generate a document id, embed it
as `id`, and write. The function has no exception handler, so a raising
`ref.set` propagates (`Except.error`). On success it returns the id together
with the document the store received. -/
def save_result_to_firestore (db_fs : Option Store) (conf_threshold : ℚ)
    (model_basename : String) (result_json : Doc)
    (material_id : String) (source : String) :
    Except String (Option (String × Doc)) :=
  match db_fs with
  | none => .ok none
  | some st =>
    let doc := result_json
    let doc := setKey doc "materialId" (orNullStr material_id)
    let doc := setKey doc "source" (orNullStr source)
    let doc := setKey doc "threshold" (.jnum conf_threshold)
    let doc := setKey doc "model" (.jstr model_basename)
    let doc := setKey doc "createdAt" .jtimestamp
    let doc := setKey doc "id" (.jstr st.newId)
    if st.writeRaises then .error "firestore write error"
    else .ok (some (st.newId, doc))

/-- Left-pad a digit string with zeros to six characters. -/
def pad6 (s : String) : String :=
  String.mk (List.replicate (6 - s.length) '0') ++ s

/-- Python's fixed-point formatting `.6f` on the rational model of the
confidence: scale the magnitude by `10^6`, round half to even, render with
six decimals. -/
def format6 (q : ℚ) : String :=
  let a := q.num.natAbs * 1000000
  let d := q.den
  let f := a / d
  let m :=
    if 2 * (a % d) < d then f
    else if 2 * (a % d) > d then f + 1
    else if f % 2 = 0 then f else f + 1
  (if q.num < 0 then "-" else "") ++
    toString (m / 1000000) ++ "." ++ pad6 (toString (m % 1000000))

/-- HTTP responses of the two handlers. A redirect carries the callback URL
and the `urlencode`d query parameters in order. -/
inductive Response where
  | text (body : String) (code : ℕ)
  | redirectTo (url : String) (params : List (String × String))
  | jsonBody (body : Doc) (code : ℕ)
deriving DecidableEq

/-- An uploaded image file, modelled by its observable effect: whether
`cv2.imdecode` succeeds on its bytes, and the label map and boxes the model
returns for it. -/
structure ImageFile where
  decodes : Bool
  names : Option (List (ℕ × String))
  boxes : Option (List Box)

/-- A POST request to `/api/verify_web`. -/
structure WebRequest where
  image : Option ImageFile
  callback : String
  materialId : String

/-- A request to `/api/verify` (`optionsMethod` marks the CORS pre-flight). -/
structure ApiRequest where
  optionsMethod : Bool
  image : Option ImageFile
  materialId : String

/-- The `verify_web` handler (lines 218-267 of `app.py`), parameterised by
the process-wide store handle, threshold and model basename. An uncaught
store exception surfaces as `Except.error`. -/
def verify_web (db_fs : Option Store) (conf_threshold : ℚ)
    (model_basename : String) (req : WebRequest) : Except String Response :=
  match req.image with
  | none => .ok (.text "No image" 400)
  | some f =>
    if f.decodes = false then .ok (.text "Failed to decode image" 400)
    else
      let det := run_pt_inference f.names f.boxes
      let result_json := verify_web_result det
      match save_result_to_firestore db_fs conf_threshold model_basename
          (resultToDoc result_json) req.materialId "verify_web" with
      | .error e => .error e
      | .ok outcome =>
        let doc_id := outcome.map Prod.fst
        if req.callback ≠ "" then
          .ok (.redirectTo req.callback
            [("id", req.materialId),
             ("aiStatus", result_json.status),
             ("aiComponent", result_json.component.getD ""),
             ("aiConfidence", format6 result_json.confidence),
             ("aiDocId", doc_id.getD "")])
        else
          .ok (.jsonBody (setKey (resultToDoc result_json) "docId"
            (match doc_id with | none => .jnull | some i => .jstr i)) 200)

/-- The `api_verify` handler (lines 269-308 of `app.py`). -/
def api_verify (db_fs : Option Store) (conf_threshold : ℚ)
    (model_basename : String) (req : ApiRequest) : Except String Response :=
  if req.optionsMethod then .ok (.text "" 204)
  else
    match req.image with
    | none =>
      .ok (.jsonBody [("ok", .jbool false), ("error", .jstr "image is required")] 400)
    | some f =>
      if f.decodes = false then
        .ok (.jsonBody [("ok", .jbool false), ("error", .jstr "failed to decode image")] 400)
      else
        let det := run_pt_inference f.names f.boxes
        let result_json := api_verify_result det
        match save_result_to_firestore db_fs conf_threshold model_basename
            (resultToDoc result_json) req.materialId "api_verify" with
        | .error e => .error e
        | .ok outcome =>
          let doc_id := outcome.map Prod.fst
          .ok (.jsonBody (setKey (resultToDoc result_json) "docId"
            (match doc_id with | none => .jnull | some i => .jstr i)) 200)

deriving instance DecidableEq for Except

/-- The six fields `save_result_to_firestore` appends, in order. -/
def provFields (st : Store) (conf_threshold : ℚ) (model_basename : String)
    (material_id : String) (source : String) : Doc :=
  [("materialId", orNullStr material_id), ("source", orNullStr source),
   ("threshold", .jnum conf_threshold), ("model", .jstr model_basename),
   ("createdAt", .jtimestamp), ("id", .jstr st.newId)]

/-- Whether a response body is a JSON document carrying `ok: false`. -/
def carriesOkFalse : Response → Bool
  | .jsonBody b _ => b.any (fun p => p.1 == "ok" && decide (p.2 = JValue.jbool false))
  | _ => false

/-- The document id the handlers observe: empty/skip when no store is
configured, the freshly generated id otherwise. -/
def docIdStrOf : Option Store → String
  | none => ""
  | some st => st.newId

/-- The `docId` JSON value the handlers embed in a direct JSON response. -/
def docIdValOf : Option Store → JValue
  | none => .jnull
  | some st => .jstr st.newId

/-! ### Helper lemmas about the selection loop -/

theorem selectBest_eq_loopR (names : Option (List (ℕ × String))) :
    ∀ (bs : List Box) (best : Option BestMatch) (bc : ℚ),
      selectBest names bs best bc = loopR (resolvables names bs) best bc := by
  intro bs
  induction bs with
  | nil => intro best bc; rfl
  | cons b rest ih =>
    intro best bc
    simp only [selectBest, resolvables, List.filterMap_cons, resolveBox]
    cases hp : parse_component (some (resolveLabel names b.cls)) with
    | none => simpa [hp] using ih best bc
    | some comp =>
      simp only [hp, Option.map_some', loopR]
      by_cases hlt : b.conf > bc
      · simpa [hlt] using ih _ b.conf
      · simpa [hlt] using ih best bc

theorem loopR_some_run (ms : List BestMatch) :
    ∀ m : BestMatch, loopR ms (some m) m.confidence =
      match firstMax ms with
      | none => some m
      | some y => if y.confidence > m.confidence then some y else some m := by
  induction ms with
  | nil => intro m; rfl
  | cons a rest ih =>
    intro m
    simp only [loopR, firstMax]
    by_cases ham : a.confidence > m.confidence
    · rw [if_pos ham, ih a]
      cases hf : firstMax rest with
      | none => simp [ham]
      | some z =>
        by_cases hza : z.confidence > a.confidence
        · have hzm : z.confidence > m.confidence := lt_trans ham hza
          simp [hza, hzm]
        · simp [hza, ham]
    · rw [if_neg ham, ih m]
      cases hf : firstMax rest with
      | none => simp [ham]
      | some z =>
        by_cases hza : z.confidence > a.confidence
        · simp [hza]
        · have hzm : ¬ z.confidence > m.confidence := by
            intro hz
            exact ham (lt_of_lt_of_le hz (le_of_not_lt hza))
          simp [hza, hzm, ham]

theorem loopR_none_firstMax (ms : List BestMatch) (bc : ℚ)
    (h : ∀ m ∈ ms, bc < m.confidence) : loopR ms none bc = firstMax ms := by
  cases ms with
  | nil => rfl
  | cons a rest =>
    have ha : a.confidence > bc := h a (by simp)
    simp only [loopR, if_pos ha, firstMax]
    exact loopR_some_run rest a

theorem firstMax_eq_none (ms : List BestMatch) : firstMax ms = none ↔ ms = [] := by
  cases ms with
  | nil => simp [firstMax]
  | cons a rest =>
    simp only [firstMax]
    cases firstMax rest with
    | none => simp
    | some z => by_cases hza : z.confidence > a.confidence <;> simp [hza]

theorem firstMax_split (ms : List BestMatch) :
    ∀ y, firstMax ms = some y →
      ∃ l₁ l₂, ms = l₁ ++ y :: l₂ ∧ (∀ m ∈ l₁, m.confidence < y.confidence) ∧
        ∀ m ∈ ms, m.confidence ≤ y.confidence := by
  induction ms with
  | nil => intro y h; cases h
  | cons a rest ih =>
    intro y h
    simp only [firstMax] at h
    cases hf : firstMax rest with
    | none =>
      rw [hf] at h
      injection h with h; subst h
      have hrest : rest = [] := (firstMax_eq_none rest).1 hf
      subst hrest
      exact ⟨[], [], rfl, by simp, by simp⟩
    | some z =>
      rw [hf] at h
      have h' : (if z.confidence > a.confidence then some z else some a) = some y := h
      by_cases hza : z.confidence > a.confidence
      · rw [if_pos hza] at h'
        injection h' with h'; subst h'
        obtain ⟨l₁, l₂, he, hlt, hle⟩ := ih z hf
        refine ⟨a :: l₁, l₂, by simp [he], ?_, ?_⟩
        · intro m hm
          rcases List.mem_cons.1 hm with hm | hm
          · subst hm; exact hza
          · exact hlt m hm
        · intro m hm
          rcases List.mem_cons.1 hm with hm | hm
          · subst hm; exact le_of_lt hza
          · exact hle m hm
      · rw [if_neg hza] at h'
        injection h' with h'; subst h'
        obtain ⟨l₁, l₂, he, hlt, hle⟩ := ih z hf
        refine ⟨[], rest, rfl, by simp, ?_⟩
        intro m hm
        rcases List.mem_cons.1 hm with hm | hm
        · subst hm; exact le_refl _
        · exact le_trans (hle m hm) (le_of_not_lt hza)

theorem resolvables_conf_nonneg (names : Option (List (ℕ × String)))
    (bs : List Box) (h : ∀ b ∈ bs, 0 ≤ b.conf) :
    ∀ m ∈ resolvables names bs, 0 ≤ m.confidence := by
  intro m hm
  simp only [resolvables, List.mem_filterMap] at hm
  obtain ⟨b, hb, hres⟩ := hm
  cases hp : parse_component (some (resolveLabel names b.cls)) with
  | none => simp [resolveBox, hp] at hres
  | some comp =>
    simp only [resolveBox, hp, Option.map_some', Option.some_inj] at hres
    subst hres
    exact h b hb

theorem run_pt_inference_eq_firstMax (names : Option (List (ℕ × String)))
    (bs : List Box) (h : ∀ b ∈ bs, 0 ≤ b.conf) :
    run_pt_inference names (some bs) = firstMax (resolvables names bs) := by
  cases bs with
  | nil => rfl
  | cons b rest =>
    have hlen : ¬ (b :: rest).length = 0 := by simp
    simp only [run_pt_inference, if_neg hlen]
    rw [selectBest_eq_loopR]
    apply loopR_none_firstMax
    intro m hm
    have h0 : 0 ≤ m.confidence := resolvables_conf_nonneg names (b :: rest) h m hm
    linarith

/-! ### Helper lemmas about the persistence adapter -/

theorem setKey_not_mem (d : Doc) (k : String) (v : JValue)
    (h : d.any (fun p => p.1 == k) = false) : setKey d k v = d ++ [(k, v)] := by
  simp only [setKey, h]
  simp

theorem save_some_eq (st : Store) (conf_threshold : ℚ) (model_basename : String)
    (r : VerificationResult) (material_id : String) (source : String)
    (h : st.writeRaises = false) :
    save_result_to_firestore (some st) conf_threshold model_basename
        (resultToDoc r) material_id source =
      .ok (some (st.newId,
        resultToDoc r ++ provFields st conf_threshold model_basename material_id source)) := by
  simp only [save_result_to_firestore, resultToDoc, setKey, provFields, h]
  simp

theorem setKey_docId (r : VerificationResult) (v : JValue) :
    setKey (resultToDoc r) "docId" v = resultToDoc r ++ [("docId", v)] := by
  simp [setKey, resultToDoc]

theorem verify_web_decoded_eq (db_fs : Option Store) (conf_threshold : ℚ)
    (model_basename : String) (f : ImageFile) (cb mid : String)
    (hdec : f.decodes = true)
    (hok : ∀ st, db_fs = some st → st.writeRaises = false) :
    verify_web db_fs conf_threshold model_basename ⟨some f, cb, mid⟩ =
      .ok (if cb ≠ "" then
        Response.redirectTo cb
          [("id", mid),
           ("aiStatus", (verify_web_result (run_pt_inference f.names f.boxes)).status),
           ("aiComponent",
             (verify_web_result (run_pt_inference f.names f.boxes)).component.getD ""),
           ("aiConfidence",
             format6 (verify_web_result (run_pt_inference f.names f.boxes)).confidence),
           ("aiDocId", docIdStrOf db_fs)]
      else
        Response.jsonBody
          (resultToDoc (verify_web_result (run_pt_inference f.names f.boxes)) ++
            [("docId", docIdValOf db_fs)]) 200) := by
  cases db_fs with
  | none =>
    simp [verify_web, hdec, save_result_to_firestore, setKey_docId, docIdStrOf, docIdValOf]
    split <;> rfl
  | some st =>
    have hw : st.writeRaises = false := hok st rfl
    simp [verify_web, hdec, save_some_eq st _ _ _ _ _ hw, setKey_docId, docIdStrOf, docIdValOf]
    split <;> rfl

theorem api_verify_decoded_eq (db_fs : Option Store) (conf_threshold : ℚ)
    (model_basename : String) (f : ImageFile) (mid : String)
    (hdec : f.decodes = true)
    (hok : ∀ st, db_fs = some st → st.writeRaises = false) :
    api_verify db_fs conf_threshold model_basename ⟨false, some f, mid⟩ =
      .ok (Response.jsonBody
        (resultToDoc (api_verify_result (run_pt_inference f.names f.boxes)) ++
          [("docId", docIdValOf db_fs)]) 200) := by
  cases db_fs with
  | none =>
    simp [api_verify, hdec, save_result_to_firestore, setKey_docId, docIdValOf]
  | some st =>
    have hw : st.writeRaises = false := hok st rfl
    simp [api_verify, hdec, save_some_eq st _ _ _ _ _ hw, setKey_docId, docIdValOf]

/-! ### Claim theorems -/

/-- C2: the best-detection selector returns `none` exactly when no detection
of the list has a label resolving to a component; otherwise it returns a
match whose confidence is the maximum confidence among detections with a
resolvable component, and on equal maxima the first-encountered such
detection's component and label win (everything strictly before the returned
match has strictly smaller confidence, since replacement uses strict
greater-than). Detection confidences are nonnegative, as produced by the
model. -/
theorem selector_first_max (names : Option (List (ℕ × String))) (boxes : List Box)
    (h : ∀ b ∈ boxes, 0 ≤ b.conf) :
    (run_pt_inference names (some boxes) = none ↔ resolvables names boxes = []) ∧
    ∀ y, run_pt_inference names (some boxes) = some y →
      ∃ l₁ l₂, resolvables names boxes = l₁ ++ y :: l₂ ∧
        (∀ m ∈ l₁, m.confidence < y.confidence) ∧
        ∀ m ∈ resolvables names boxes, m.confidence ≤ y.confidence := by
  rw [run_pt_inference_eq_firstMax names boxes h]
  exact ⟨firstMax_eq_none _, fun y hy => firstMax_split _ y hy⟩

/-- C2 witness: the spec's own scenario — boxes `bolt_rust@0.81`,
`qr_code@0.95`, `clip_ok@0.60` under the static label table. -/
theorem selector_first_max_witness :
    (run_pt_inference none
        (some [⟨mkRat 81 100, 16⟩, ⟨mkRat 95 100, 24⟩, ⟨mkRat 60 100, 0⟩]) = none ↔
      resolvables none [⟨mkRat 81 100, 16⟩, ⟨mkRat 95 100, 24⟩, ⟨mkRat 60 100, 0⟩] = []) ∧
    ∀ y, run_pt_inference none
        (some [⟨mkRat 81 100, 16⟩, ⟨mkRat 95 100, 24⟩, ⟨mkRat 60 100, 0⟩]) = some y →
      ∃ l₁ l₂, resolvables none [⟨mkRat 81 100, 16⟩, ⟨mkRat 95 100, 24⟩, ⟨mkRat 60 100, 0⟩] =
          l₁ ++ y :: l₂ ∧
        (∀ m ∈ l₁, m.confidence < y.confidence) ∧
        ∀ m ∈ resolvables none [⟨mkRat 81 100, 16⟩, ⟨mkRat 95 100, 24⟩, ⟨mkRat 60 100, 0⟩],
          m.confidence ≤ y.confidence :=
  selector_first_max none [⟨mkRat 81 100, 16⟩, ⟨mkRat 95 100, 24⟩, ⟨mkRat 60 100, 0⟩]
    (by decide)

/-- C10: a detection list with at least one resolvable-component detection
never yields `none`, even at confidence `0.0`, because the running best
confidence starts at `-1.0` and replacement uses strict greater-than; a
`verified` result can therefore carry confidence `0.0`, the same confidence
a `not_detected` result carries. -/
theorem selector_some_on_resolvable (names : Option (List (ℕ × String)))
    (boxes : List Box) (h0 : ∀ b ∈ boxes, 0 ≤ b.conf)
    (h1 : resolvables names boxes ≠ []) :
    run_pt_inference names (some boxes) ≠ none ∧
    verify_web_result (run_pt_inference none (some [⟨mkRat 0 1, 0⟩])) =
      { ok := true, status := "verified", component := some "clip",
        confidence := mkRat 0 1 } ∧
    verify_web_result none =
      { ok := true, status := "not_detected", component := none,
        confidence := mkRat 0 1 } := by
  refine ⟨?_, by decide, by decide⟩
  rw [run_pt_inference_eq_firstMax names boxes h0]
  intro hn
  exact h1 ((firstMax_eq_none _).1 hn)

/-- C10 witness: a single `clip_ok` detection with confidence `0.0`. -/
theorem selector_some_on_resolvable_witness :
    run_pt_inference none (some [⟨mkRat 0 1, 0⟩]) ≠ none ∧
    verify_web_result (run_pt_inference none (some [⟨mkRat 0 1, 0⟩])) =
      { ok := true, status := "verified", component := some "clip",
        confidence := mkRat 0 1 } ∧
    verify_web_result none =
      { ok := true, status := "not_detected", component := none,
        confidence := mkRat 0 1 } :=
  selector_some_on_resolvable none [⟨mkRat 0 1, 0⟩] (by decide) (by decide)

/-- C3: the vocabulary matcher returns a component contained in the label
when no other candidate is contained; it returns no match when no candidate
is contained (so in particular for `qr_code` and the empty or absent label);
and in general the returned component is exactly the first entry of the
ordered candidate list occurring in the lowercased label. -/
theorem matcher_spec (label : Option String) :
    (∀ c ∈ COMPONENTS,
      substrIn c (lowerStr (label.getD "")) = true →
      (∀ c' ∈ COMPONENTS, c' ≠ c → substrIn c' (lowerStr (label.getD "")) = false) →
      parse_component label = some c) ∧
    ((∀ c ∈ COMPONENTS, substrIn c (lowerStr (label.getD "")) = false) →
      parse_component label = none) ∧
    parse_component (some "qr_code") = none ∧
    ∀ c, parse_component label = some c ↔
      substrIn c (lowerStr (label.getD "")) = true ∧
      ∃ l₁ l₂, COMPONENTS = l₁ ++ c :: l₂ ∧
        ∀ c' ∈ l₁, substrIn c' (lowerStr (label.getD "")) = false := by
  refine ⟨?_, ?_, by decide, ?_⟩
  · intro c hc h1 h2
    obtain ⟨l₁, l₂, he⟩ := List.append_of_mem hc
    have hnd : COMPONENTS.Nodup := by decide
    rw [he] at hnd
    have hcl : c ∉ l₁ := fun hx =>
      (List.nodup_append.1 hnd).2.2 hx (List.mem_cons_self _ _)
    show COMPONENTS.find? (fun comp => substrIn comp (lowerStr (label.getD ""))) = some c
    refine List.find?_eq_some.2 ⟨h1, l₁, l₂, he, ?_⟩
    intro a ha
    have hac : a ≠ c := fun hEq => hcl (hEq ▸ ha)
    have hmem : a ∈ COMPONENTS := he ▸ List.mem_append_left _ ha
    simp [h2 a hmem hac]
  · intro h
    show COMPONENTS.find? (fun comp => substrIn comp (lowerStr (label.getD ""))) = none
    refine List.find?_eq_none.2 ?_
    intro x hx
    simp [h x hx]
  · intro c
    constructor
    · intro hfind
      have h' := List.find?_eq_some.1 hfind
      obtain ⟨hp, l₁, l₂, he, hall⟩ := h'
      refine ⟨hp, l₁, l₂, he, ?_⟩
      intro c' hc'
      have := hall c' hc'
      simpa using this
    · rintro ⟨h1, l₁, l₂, he, hall⟩
      exact List.find?_eq_some.2 ⟨h1, l₁, l₂, he, fun a ha => by simp [hall a ha]⟩

/-- C3 witness: `bolt_rust` contains only `bolt`; `SLEEPER_missing` matches
case-insensitively; `qr_code` and the absent label match nothing. -/
theorem matcher_spec_witness :
    parse_component (some "bolt_rust") = some "bolt" ∧
    parse_component (some "SLEEPER_missing") = some "sleeper" ∧
    parse_component (some "qr_code") = none ∧
    parse_component none = none :=
  ⟨(matcher_spec (some "bolt_rust")).1 "bolt" (by decide) (by decide) (by decide),
   (matcher_spec (some "SLEEPER_missing")).1 "sleeper" (by decide) (by decide) (by decide),
   (matcher_spec (some "qr_code")).2.2.1,
   (matcher_spec none).2.1 (by decide)⟩

/-- C4: the verdict builder is a pure total function of the selector's
output: `none` yields `{ok: true, status: not_detected, component: null,
confidence: 0.0}`; a match yields `{ok: true, status: verified, component:
match.component, confidence: match.confidence}` with the confidence carried
through unmodified, identically in both request handlers. -/
theorem builder_spec (det : Option BestMatch) :
    verify_web_result none =
      { ok := true, status := "not_detected", component := none,
        confidence := mkRat 0 1 } ∧
    (∀ d, verify_web_result (some d) =
      { ok := true, status := "verified", component := some d.component,
        confidence := d.confidence }) ∧
    api_verify_result det = verify_web_result det := by
  refine ⟨by decide, fun d => rfl, ?_⟩
  cases det <;> rfl

/-- C7: class-label resolution precedence — the model's own label map wins
when it contains the id; else the static `CLASS_NAMES` table when the id is
in range; else the stringified id; and only the resolved label is handed to
the matcher. -/
theorem label_resolution_precedence (names : List (ℕ × String)) (cls_id : ℕ) :
    (∀ s, lookupName names cls_id = some s → resolveLabel (some names) cls_id = s) ∧
    (lookupName names cls_id = none → cls_id < CLASS_NAMES.length →
      resolveLabel (some names) cls_id = CLASS_NAMES.getD cls_id "") ∧
    (lookupName names cls_id = none → ¬ cls_id < CLASS_NAMES.length →
      resolveLabel (some names) cls_id = toString cls_id) ∧
    (resolveLabel none cls_id =
      if cls_id < CLASS_NAMES.length then CLASS_NAMES.getD cls_id ""
      else toString cls_id) ∧
    ∀ b : Box, resolveBox (some names) b =
      (parse_component (some (resolveLabel (some names) b.cls))).map
        (fun comp => { component := comp, confidence := b.conf,
                       class_name := resolveLabel (some names) b.cls }) := by
  refine ⟨?_, ?_, ?_, rfl, fun b => rfl⟩
  · intro s hs; simp [resolveLabel, hs]
  · intro hn hlt; simp [resolveLabel, hn, hlt]
  · intro hn hlt; simp [resolveLabel, hn, hlt]

/-- C7 witness: with label map `{2: custom}`, id 2 resolves to the map
entry, id 0 falls back to `CLASS_NAMES[0] = clip_ok`, and the out-of-range
id 30 resolves to `"30"`. -/
theorem label_resolution_precedence_witness :
    resolveLabel (some [(2, "custom")]) 2 = "custom" ∧
    resolveLabel (some [(2, "custom")]) 0 = "clip_ok" ∧
    resolveLabel (some [(2, "custom")]) 30 = "30" :=
  ⟨(label_resolution_precedence [(2, "custom")] 2).1 "custom" (by decide),
   ((label_resolution_precedence [(2, "custom")] 0).2.1 (by decide) (by decide)).trans
     (by decide),
   ((label_resolution_precedence [(2, "custom")] 30).2.2.1 (by decide) (by decide)).trans
     (by decide)⟩

/-- C1 counterexample: `save_result_to_firestore` has no exception handler,
so a raising store write propagates out of the adapter and out of the
handler — the request fails instead of returning the verification result. -/
theorem save_error_propagates_cex :
    verify_web (some { newId := "abc123", writeRaises := true }) (mkRat 7 20) "best.pt"
        { image := some { decodes := true, names := none,
                          boxes := some [{ conf := mkRat 81 100, cls := 16 }] },
          callback := "", materialId := "m1" } =
      .error "firestore write error" ∧
    save_result_to_firestore (some { newId := "abc123", writeRaises := true })
        (mkRat 7 20) "best.pt"
        (resultToDoc { ok := true, status := "verified", component := some "bolt",
                       confidence := mkRat 81 100 }) "m1" "verify_web" =
      .error "firestore write error" :=
  ⟨by decide, by decide⟩

/-- C1 amended: only a missing/unconfigured store is converted to "skip
persistence" (a none document id) with the handler still returning the
VerificationResult; an exception raised by the store write during
persistence is NOT caught at the adapter boundary — it propagates and fails
the request. -/
theorem persistence_error_policy (conf_threshold : ℚ) (model_basename : String)
    (f : ImageFile) (cb mid : String) (hdec : f.decodes = true) :
    verify_web none conf_threshold model_basename ⟨some f, cb, mid⟩ =
      .ok (if cb ≠ "" then
        Response.redirectTo cb
          [("id", mid),
           ("aiStatus", (verify_web_result (run_pt_inference f.names f.boxes)).status),
           ("aiComponent",
             (verify_web_result (run_pt_inference f.names f.boxes)).component.getD ""),
           ("aiConfidence",
             format6 (verify_web_result (run_pt_inference f.names f.boxes)).confidence),
           ("aiDocId", "")]
      else
        Response.jsonBody
          (resultToDoc (verify_web_result (run_pt_inference f.names f.boxes)) ++
            [("docId", JValue.jnull)]) 200) ∧
    ∀ st : Store, st.writeRaises = true →
      verify_web (some st) conf_threshold model_basename ⟨some f, cb, mid⟩ =
        .error "firestore write error" := by
  constructor
  · exact verify_web_decoded_eq none conf_threshold model_basename f cb mid hdec
      (fun st h => by cases h)
  · intro st hst
    simp [verify_web, hdec, save_result_to_firestore, hst]

/-- C1 witness: with no store configured the handler answers with the full
result JSON and a null `docId`; applying the amended theorem at a concrete
decoded image. -/
theorem persistence_error_policy_witness :
    verify_web none (mkRat 7 20) "best.pt"
        { image := some { decodes := true, names := none,
                          boxes := some [{ conf := mkRat 81 100, cls := 16 }] },
          callback := "", materialId := "m1" } =
      .ok (.jsonBody
        [("ok", .jbool true), ("status", .jstr "verified"),
         ("component", .jstr "bolt"), ("confidence", .jnum (mkRat 81 100)),
         ("docId", .jnull)] 200) := by
  have h := (persistence_error_policy (mkRat 7 20) "best.pt"
    { decodes := true, names := none, boxes := some [{ conf := mkRat 81 100, cls := 16 }] }
    "" "m1" rfl).1
  rw [h]
  decide

/-- C5 counterexample: besides the five provenance fields, the stored
document also embeds the generated document id under the key `id` — a key
outside the VerificationResult's fields and the five provenance fields, so
"exactly the five provenance fields, and no other keys" fails. -/
theorem stored_doc_extra_id_key_cex :
    (match save_result_to_firestore (some { newId := "abc123", writeRaises := false })
        (mkRat 7 20) "best.pt"
        (resultToDoc { ok := true, status := "not_detected", component := none,
                       confidence := mkRat 0 1 }) "" "verify_web" with
     | .ok (some (_, d)) => d.map Prod.fst
     | _ => []) =
      ["ok", "status", "component", "confidence",
       "materialId", "source", "threshold", "model", "createdAt", "id"] ∧
    "id" ∉ (["ok", "status", "component", "confidence"] ++
      ["materialId", "source", "threshold", "model", "createdAt"]) := by
  exact ⟨by decide, by decide⟩

/-- C5 amended: with a configured store the stored document is the
VerificationResult's fields verbatim followed by exactly the five provenance
fields plus the embedded generated `id`, and no other keys; the generated id
is returned. With no store configured the adapter returns none without
raising. -/
theorem stored_doc_fields (st : Store) (r : VerificationResult)
    (conf_threshold : ℚ) (model_basename mid src : String)
    (h : st.writeRaises = false) :
    save_result_to_firestore (some st) conf_threshold model_basename
        (resultToDoc r) mid src =
      .ok (some (st.newId,
        resultToDoc r ++ provFields st conf_threshold model_basename mid src)) ∧
    save_result_to_firestore none conf_threshold model_basename
        (resultToDoc r) mid src = .ok none :=
  ⟨save_some_eq st conf_threshold model_basename r mid src h, rfl⟩

/-- C5 witness: a concrete `not_detected` result stored with threshold 0.35
and model `best.pt`. -/
theorem stored_doc_fields_witness :
    save_result_to_firestore (some { newId := "abc123", writeRaises := false })
        (mkRat 7 20) "best.pt"
        (resultToDoc { ok := true, status := "not_detected", component := none,
                       confidence := mkRat 0 1 }) "" "verify_web" =
      .ok (some ("abc123",
        [("ok", .jbool true), ("status", .jstr "not_detected"),
         ("component", .jnull), ("confidence", .jnum (mkRat 0 1)),
         ("materialId", .jnull), ("source", .jstr "verify_web"),
         ("threshold", .jnum (mkRat 7 20)), ("model", .jstr "best.pt"),
         ("createdAt", .jtimestamp), ("id", .jstr "abc123")])) := by
  have h := (stored_doc_fields { newId := "abc123", writeRaises := false }
    { ok := true, status := "not_detected", component := none, confidence := mkRat 0 1 }
    (mkRat 7 20) "best.pt" "" "verify_web" rfl).1
  rw [h]
  decide

/-- C6 counterexample: on `verify_web` a missing image yields the plain-text
response `"No image"` with status 400 — a body that carries no
boolean-false `ok` flag, so the claim fails for that endpoint. -/
theorem missing_image_web_plain_text_cex :
    verify_web (some { newId := "abc123", writeRaises := true }) (mkRat 7 20) "best.pt"
        { image := none, callback := "", materialId := "" } =
      .ok (.text "No image" 400) ∧
    carriesOkFalse (.text "No image" 400) = false :=
  ⟨by decide, rfl⟩

/-- C6 amended: a missing image short-circuits both handlers with a 400
response before inference, selection, building or persistence (the response
is the same whatever the store state, even a raising one); the body carries
a boolean-false `ok` flag and an error message on `api_verify`, but is the
plain text `"No image"` on `verify_web`. -/
theorem missing_image_short_circuit (db_fs : Option Store) (conf_threshold : ℚ)
    (model_basename cb mid : String) :
    verify_web db_fs conf_threshold model_basename ⟨none, cb, mid⟩ =
      .ok (.text "No image" 400) ∧
    api_verify db_fs conf_threshold model_basename ⟨false, none, mid⟩ =
      .ok (.jsonBody [("ok", .jbool false), ("error", .jstr "image is required")] 400) ∧
    carriesOkFalse
      (.jsonBody [("ok", .jbool false), ("error", .jstr "image is required")] 400) = true ∧
    carriesOkFalse (.text "No image" 400) = false :=
  ⟨rfl, rfl, by decide, rfl⟩

/-- C8: on a decoded image with a non-empty callback (and a store that does
not raise), `verify_web` responds with a redirect to the callback carrying
exactly the query parameters `id`, `aiStatus`, `aiComponent` (empty string
when the component is null), `aiConfidence` (six decimal places) and
`aiDocId` (empty string when persistence was skipped). -/
theorem redirect_params_spec (db_fs : Option Store) (conf_threshold : ℚ)
    (model_basename : String) (f : ImageFile) (cb mid : String)
    (hdec : f.decodes = true) (hcb : cb ≠ "")
    (hok : ∀ st, db_fs = some st → st.writeRaises = false) :
    verify_web db_fs conf_threshold model_basename ⟨some f, cb, mid⟩ =
      .ok (.redirectTo cb
        [("id", mid),
         ("aiStatus", (verify_web_result (run_pt_inference f.names f.boxes)).status),
         ("aiComponent",
           (verify_web_result (run_pt_inference f.names f.boxes)).component.getD ""),
         ("aiConfidence",
           format6 (verify_web_result (run_pt_inference f.names f.boxes)).confidence),
         ("aiDocId", docIdStrOf db_fs)]) := by
  rw [verify_web_decoded_eq db_fs conf_threshold model_basename f cb mid hdec hok]
  rw [if_pos hcb]

/-- C8 witness: `bolt_rust` at confidence 0.81, no store, callback present:
redirect with `aiConfidence = "0.810000"` and empty `aiDocId`. -/
theorem redirect_params_spec_witness :
    verify_web none (mkRat 7 20) "best.pt"
        { image := some { decodes := true, names := none,
                          boxes := some [{ conf := mkRat 81 100, cls := 16 }] },
          callback := "http://cb", materialId := "m1" } =
      .ok (.redirectTo "http://cb"
        [("id", "m1"), ("aiStatus", "verified"), ("aiComponent", "bolt"),
         ("aiConfidence", "0.810000"), ("aiDocId", "")]) := by
  have h := redirect_params_spec none (mkRat 7 20) "best.pt"
    { decodes := true, names := none, boxes := some [{ conf := mkRat 81 100, cls := 16 }] }
    "http://cb" "m1" rfl (by decide) (fun st h => by cases h)
  rw [h]
  decide

/-- C9: the persistence adapter works on a copy — the stored document is the
unchanged VerificationResult fields followed by the appended provenance
fields; the redirect-to-callback response carries exactly the five `ai`
query parameters and none of the provenance keys; and only the direct
JSON-response paths (no-callback `verify_web` and `api_verify`) add a
`docId` field, leaving every other result field unchanged. -/
theorem frame_no_provenance_leak (db_fs : Option Store) (conf_threshold : ℚ)
    (model_basename : String) (f : ImageFile) (cb mid : String)
    (hdec : f.decodes = true)
    (hok : ∀ st, db_fs = some st → st.writeRaises = false) :
    (∀ st, db_fs = some st →
      save_result_to_firestore (some st) conf_threshold model_basename
          (resultToDoc (verify_web_result (run_pt_inference f.names f.boxes)))
          mid "verify_web" =
        .ok (some (st.newId,
          resultToDoc (verify_web_result (run_pt_inference f.names f.boxes)) ++
            provFields st conf_threshold model_basename mid "verify_web"))) ∧
    (cb ≠ "" → ∀ url ps,
      verify_web db_fs conf_threshold model_basename ⟨some f, cb, mid⟩ =
        .ok (.redirectTo url ps) →
      ps.map Prod.fst = ["id", "aiStatus", "aiComponent", "aiConfidence", "aiDocId"] ∧
      ∀ k ∈ ["materialId", "source", "threshold", "model", "createdAt"],
        k ∉ ps.map Prod.fst) ∧
    (cb = "" → verify_web db_fs conf_threshold model_basename ⟨some f, cb, mid⟩ =
      .ok (.jsonBody
        (resultToDoc (verify_web_result (run_pt_inference f.names f.boxes)) ++
          [("docId", docIdValOf db_fs)]) 200)) ∧
    api_verify db_fs conf_threshold model_basename ⟨false, some f, mid⟩ =
      .ok (.jsonBody
        (resultToDoc (api_verify_result (run_pt_inference f.names f.boxes)) ++
          [("docId", docIdValOf db_fs)]) 200) := by
  refine ⟨?_, ?_, ?_, api_verify_decoded_eq db_fs conf_threshold model_basename f mid hdec hok⟩
  · intro st hst
    exact save_some_eq st conf_threshold model_basename _ mid "verify_web"
      (hok st hst)
  · intro hcb url ps heq
    rw [verify_web_decoded_eq db_fs conf_threshold model_basename f cb mid hdec hok,
      if_pos hcb] at heq
    have hps :
        ps = [("id", mid),
          ("aiStatus", (verify_web_result (run_pt_inference f.names f.boxes)).status),
          ("aiComponent",
            (verify_web_result (run_pt_inference f.names f.boxes)).component.getD ""),
          ("aiConfidence",
            format6 (verify_web_result (run_pt_inference f.names f.boxes)).confidence),
          ("aiDocId", docIdStrOf db_fs)] := by
      have := heq
      injection this with h1
      injection h1 with _ h2
      exact h2.symm
    subst hps
    exact ⟨rfl, by simp⟩
  · intro hcb
    rw [verify_web_decoded_eq db_fs conf_threshold model_basename f cb mid hdec hok]
    rw [if_neg (by simp [hcb])]

/-- C9 witness: the concrete no-callback store-configured case — the JSON
response is the result plus `docId` only, the stored document is the result
plus the provenance fields. -/
theorem frame_no_provenance_leak_witness :
    verify_web (some { newId := "D7", writeRaises := false }) (mkRat 7 20) "best.pt"
        { image := some { decodes := true, names := none,
                          boxes := some [{ conf := mkRat 81 100, cls := 16 }] },
          callback := "", materialId := "m1" } =
      .ok (.jsonBody
        [("ok", .jbool true), ("status", .jstr "verified"),
         ("component", .jstr "bolt"), ("confidence", .jnum (mkRat 81 100)),
         ("docId", .jstr "D7")] 200) := by
  have h := (frame_no_provenance_leak (some { newId := "D7", writeRaises := false })
    (mkRat 7 20) "best.pt"
    { decodes := true, names := none, boxes := some [{ conf := mkRat 81 100, cls := 16 }] }
    "" "m1" rfl (fun st hst => by cases hst; rfl)).2.2.1 rfl
  rw [h]
  decide

end Verify
